import Mathlib

/-!
Shallow embedding of the `mail-cli` repository (Rust) for specification
verification.  The embedding follows the source files:

* `src/mail_filters.rs` — header field selectors and the IMAP filter string
  builder (`HeaderFilter::filter_str`, `HeaderField::filter_str`).  The Rust
  `HashSet<HeaderField>` is modelled as a list holding the stored elements in
  iteration order, with insertion deduplicating under the source's
  discriminant-only `PartialEq`.
* `src/mail.rs` — `MailBox::fetch_n_recent_mails` and
  `get_mails_sorted_by_date`.  The IMAP server is modelled as named mailboxes
  holding messages in ascending sequence-number (mailbox) order; a `FETCH`
  with a sequence set returns the matching messages in mailbox order, and an
  empty or invalid sequence set is a protocol error.  External parsers
  (chrono's RFC 2822 date parser, `mail_parser::Message::parse`) are
  abstracted by their results, stored on each message: `dateHeader` is the
  parse result of the Date header (`none` = absent or unparsable, on which
  the source calls `unwrap` and panics), `parsed` is the MIME parse result of
  the full body.
* `src/main.rs` — `fetch_top_n_msg_from_inbox` and the `Commands::Read`
  session-establishment sequence, modelled as a function from an environment
  oracle (session-open / token-refresh / persist outcomes) to an event trace.
* `src/google.rs` — the two token-endpoint handlers as functions of the
  HTTP response (status plus abstract JSON-decode results).
* `src/store_accounts.rs` — `StoredAccounts::load_data`, parameterized over
  the external TOML decoder.

Rust `u32` sequence numbers are modelled as `Nat` (no arithmetic close to
`2^32` occurs), and chrono `DateTime<FixedOffset>` as an integer instant
together with its RFC 2822 rendering.
-/

/-- Model of chrono `DateTime<FixedOffset>`: `ts` is the instant used by
`Ord`/`cmp`, `r2822` the string produced by `to_rfc2822`. -/
structure ChronoDateTime where
  ts : Int
  r2822 : String
deriving Repr, DecidableEq

/-- `HeaderField` from `src/mail_filters.rs`: a tagged selector over
Subject/To/From/Date, each optionally carrying a value. -/
inductive HeaderField where
  | Subject (value : Option String)
  | To (value : Option String)
  | From (value : Option String)
  | Date (value : Option ChronoDateTime)
deriving Repr, DecidableEq

/-- `std::mem::discriminant`, as a numeric tag. -/
def HeaderField.discriminant : HeaderField → Nat
  | .Subject _ => 0
  | .To _ => 1
  | .From _ => 2
  | .Date _ => 3

/-- The source's `PartialEq for HeaderField`: equality compares only the
discriminants, so the attached values are ignored. -/
def HeaderField.eqv (a b : HeaderField) : Bool :=
  a.discriminant == b.discriminant

/-- An injective code for strings (base-2097152 digits, one per char),
standing in for the string hashing the derived `Hash` performs. -/
def hashString (s : String) : Nat :=
  s.data.foldl (fun h c => h * 2097152 + (c.toNat + 1)) 0

/-- Code of an optional string payload. -/
def hashOptString : Option String → Nat
  | none => 0
  | some s => hashString s + 1

/-- Code of an optional date payload. -/
def hashOptDate : Option ChronoDateTime → Nat
  | none => 0
  | some d => (d.ts.natAbs * 2 + (if d.ts < 0 then 1 else 0)) * 2097152
      + hashString d.r2822 + 1

/-- Model of the derived `Hash for HeaderField`: unlike the hand-written
`PartialEq`, it hashes the discriminant **and** the payload, so two
selectors with the same tag but different predicate values hash
differently. -/
def derivedHash : HeaderField → Nat
  | .Subject v => 4 * hashOptString v
  | .To v => 4 * hashOptString v + 1
  | .From v => 4 * hashOptString v + 2
  | .Date v => 4 * hashOptDate v + 3

/-- `HashSet<HeaderField>::insert`, parameterized over the hasher: the
probe compares the new element only against stored elements in its bucket
— elements with the same hash — and among those uses `PartialEq`
(tag-only).  If no stored element has both the same hash and the same tag,
the element is added: with the source's payload-sensitive derived `Hash`,
two same-tag selectors with different values are therefore both
retained, even though they compare equal. -/
def hashSetInsert (hash : HeaderField → Nat) (s : List HeaderField)
    (x : HeaderField) : List HeaderField :=
  if s.any (fun y => hash y == hash x && HeaderField.eqv y x) then s
  else s ++ [x]

/-- `HashSet::from([...])` / `FromIterator`: sequential insertion. -/
def hashSetOfList (hash : HeaderField → Nat) (xs : List HeaderField) :
    List HeaderField :=
  xs.foldl (hashSetInsert hash) []

/-- `HeaderField::filter_str` from `src/mail_filters.rs`.  Note that the
source renders the `From` variant with the tag `TO`, and that the attached
value (empty string when absent) is always appended after the tag. -/
def HeaderField.filter_str : HeaderField → String
  | .Subject subject => "SUBJECT " ++ subject.getD ""
  | .To t => "TO " ++ t.getD ""
  | .From f => "TO " ++ f.getD ""
  | .Date date => "DATE " ++ (date.map (fun d => d.r2822)).getD ""

/-- `HeaderFilter::filter_str` from `src/mail_filters.rs`, as a function of
the set's stored elements in iteration order (`fields`) and the `negated`
flag. -/
def HeaderFilter.filter_str (fields : List HeaderField) (negated : Bool) : Option String :=
  if fields.isEmpty then none
  else
    let negStr := if negated then ".NOT" else ""
    let fieldStrs := String.intercalate ", " (fields.map HeaderField.filter_str)
    some ("HEADER.FIELDS" ++ negStr ++ " (" ++ fieldStrs ++ ")")

/-- Boolean set equality of two iteration sequences under the source's
discriminant-only element equality (this is what `HashSet::eq` compares). -/
def sameFieldSet (a b : List HeaderField) : Bool :=
  a.all (fun x => b.any (fun y => HeaderField.eqv x y))
    && b.all (fun x => a.any (fun y => HeaderField.eqv x y))

/-- The raw bytes `msg.body()` exposes for one fetched message: absent,
present but not valid UTF-8, or decodable to a text. -/
inductive RawBody where
  | missing
  | invalidUtf8
  | text (s : String)
deriving Repr, DecidableEq

/-- `ParsedMail`: the projection produced by the external MIME parser
(`mail_parser::Message`) on a raw message body. -/
structure ParsedMail where
  fromHeader : Option String
  toHeader : Option String
  date : Option ChronoDateTime
  subject : Option String
  body : String
deriving Repr, DecidableEq

/-- `Mail` from `src/mail.rs`. -/
structure Mail where
  ord_num : Nat
  fromHeader : Option String
  toHeader : Option String
  date : Option ChronoDateTime
  subject : Option String
  body : String
deriving Repr, DecidableEq

/-- `Mail::from_msg`. -/
def Mail.from_msg (msg : ParsedMail) (ord_num : Nat) : Mail :=
  ⟨ord_num, msg.fromHeader, msg.toHeader, msg.date, msg.subject, msg.body⟩

/-- One message as held by the IMAP server.  `message` is the sequence
number (`item.message`); `dateHeader` abstracts the chrono RFC 2822 parse of
the Date header (`none` when the header is absent or unparsable); `body`
abstracts the raw full body; `parsed` abstracts `Message::parse` on the
decoded body. -/
structure ImapItem where
  message : Nat
  dateHeader : Option ChronoDateTime
  body : RawBody
  parsed : Option ParsedMail
deriving Repr, DecidableEq

/-- IMAP command failures surfaced by the `imap` crate. -/
inductive ImapError where
  | noSuchMailbox
  | badFetchSet
deriving Repr, DecidableEq

/-- Per-message failures inside a fetch result. -/
inductive MailError where
  | utf8Invalid
  | parseFailed
  | noBody
deriving Repr, DecidableEq

/-- Failures that abort a whole fetch call, including a Rust panic from an
`unwrap` on `None`/`Err`. -/
inductive Failure where
  | imap (e : ImapError)
  | panicked
  | messageFailed (e : MailError)
deriving Repr, DecidableEq

/-- The IMAP server: named mailboxes, each listing its messages in mailbox
order (ascending sequence number). -/
structure ImapSession where
  mailboxes : List (String × List ImapItem)
deriving Repr, DecidableEq

/-- `session.select(name)`: yields the mailbox's messages. -/
def ImapSession.select (s : ImapSession) (name : String) :
    Except ImapError (List ImapItem) :=
  match s.mailboxes.find? (fun p => p.1 == name) with
  | some p => Except.ok p.2
  | none => Except.error ImapError.noSuchMailbox

/-- `session.fetch(seq_set, ...)`: the server returns the matching messages
in mailbox order, regardless of the order the numbers were listed in; an
empty sequence-set string or a sequence number `0` is a protocol error. -/
def fetchSeqSet (mbox : List ImapItem) (seqs : List Nat) :
    Except ImapError (List ImapItem) :=
  if seqs.isEmpty || seqs.contains 0 then Except.error ImapError.badFetchSet
  else Except.ok (mbox.filter (fun m => seqs.contains m.message))

/-- The per-item body of the ranking pass in `get_mails_sorted_by_date`:
`item.header()` is read, split at `:` and the value parsed with
`chrono::DateTime::parse_from_rfc2822` — each step followed by `unwrap`, so
an absent or unparsable Date header is a panic, not an error value. -/
def dateOfItem (item : ImapItem) : Except Failure (ChronoDateTime × Nat) :=
  match item.dateHeader with
  | some d => Except.ok (d, item.message)
  | none => Except.error Failure.panicked

/-- `get_mails_sorted_by_date` from `src/mail.rs`: list all sequence
numbers, fetch only the Date header of each message, pair parsed date with
sequence number, sort ascending by date (stable), reverse, and return the
sequence numbers newest-first. -/
def get_mails_sorted_by_date (mbox : List ImapItem) : Except Failure (List Nat) := do
  let all_ord_nums := mbox.map (fun item => item.message)
  let _filter_str :=
    (HeaderFilter.filter_str (hashSetOfList derivedHash [HeaderField.Date none]) false).getD ""
  let items ← (fetchSeqSet mbox all_ord_nums).mapError Failure.imap
  let dated ← items.mapM dateOfItem
  let sorted := (dated.mergeSort (fun a b => decide (a.1.ts ≤ b.1.ts))).reverse
  return sorted.map (fun p => p.2)

/-- The per-item closure of `fetch_n_recent_mails`: UTF-8 decode the raw
body (`unwrap_or(&[])` turns an absent body into the empty byte string,
which decodes but fails MIME parsing), then `Message::parse`; a failed step
yields that slot's error. -/
def parseMailItem (item : ImapItem) : Except MailError Mail :=
  match item.body with
  | RawBody.missing => Except.error MailError.parseFailed
  | RawBody.invalidUtf8 => Except.error MailError.utf8Invalid
  | RawBody.text _ =>
    match item.parsed with
    | some msg => Except.ok (Mail.from_msg msg item.message)
    | none => Except.error MailError.parseFailed

/-- `MailBox::fetch_n_recent_mails` from `src/mail.rs`: select the mailbox,
rank all messages by date, take the first `n` sequence numbers, batch-fetch
those messages, map each to a parse result and reverse the fetched order. -/
def fetch_n_recent_mails (mailboxName : String) (n : Nat) (session : ImapSession) :
    Except Failure (List (Except MailError Mail)) := do
  let mbox ← (session.select mailboxName).mapError Failure.imap
  let recent_ord_nums ← get_mails_sorted_by_date mbox
  let fetch_nums := recent_ord_nums.take n
  let mailbox_items ← (fetchSeqSet mbox fetch_nums).mapError Failure.imap
  return (mailbox_items.map parseMailItem).reverse

/-- First error in a list of per-message results (the source's
`for mail in mails.iter()` early-return loop). -/
def firstError : List (Except MailError String) → Option MailError
  | [] => none
  | Except.error e :: _ => some e
  | Except.ok _ :: rest => firstError rest

/-- `fetch_top_n_msg_from_inbox` from `src/main.rs`: select `"INBOX"`,
fetch the single sequence number `n` (`format!("{n}")`), decode each body,
fail the whole call on the first per-message error, else return the decoded
bodies. -/
def fetch_top_n_msg_from_inbox (session : ImapSession) (n : Nat) :
    Except Failure (List String) := do
  let mbox ← (session.select "INBOX").mapError Failure.imap
  let messages ← (fetchSeqSet mbox [n]).mapError Failure.imap
  let mails := messages.map (fun msg =>
    match msg.body with
    | RawBody.text s => Except.ok s
    | RawBody.invalidUtf8 => Except.error MailError.utf8Invalid
    | RawBody.missing => Except.error MailError.noBody)
  match firstError mails with
  | some e => Except.error (Failure.messageFailed e)
  | none => Except.ok (mails.filterMap (fun m => m.toOption))

/-- `StoredAccountData` (declared identically in `src/main.rs` and
`src/store_accounts.rs`). -/
structure StoredAccountData where
  access_token : String
  refresh_token : String
deriving Repr, DecidableEq

/-- The in-memory `HashMap<String, StoredAccountData>`, as an association
list with unique keys. -/
abbrev Accounts := List (String × StoredAccountData)

/-- `HashMap::insert`: replace the entry for an existing key, otherwise add
a new entry. -/
def insertAccount (accounts : Accounts) (key : String) (value : StoredAccountData) :
    Accounts :=
  if accounts.any (fun p => p.1 == key) then
    accounts.map (fun p => if p.1 == key then (key, value) else p)
  else accounts ++ [(key, value)]

/-- `HashMap::get`. -/
def lookupAccount (accounts : Accounts) (key : String) : Option StoredAccountData :=
  (accounts.find? (fun p => p.1 == key)).map (fun p => p.2)

/-- Outcomes of the external effects performed while establishing the read
session: whether opening an IMAP session with a given access token
authenticates, what the token endpoint answers to a refresh with a given
refresh token (`none` = refresh failed), and whether writing the account
file succeeds. -/
structure ReadEnv where
  openSession : String → Bool
  refreshToken : String → Option String
  persistOk : Bool

/-- Observable effects of the `Commands::Read` session establishment, in
program order. -/
inductive SessionEvent where
  | openAttempt (access_token : String)
  | refreshCall (refresh_token : String)
  | persistCall (accounts : Accounts)
deriving Repr, DecidableEq

/-- Terminal result of the session establishment. -/
inductive SessionOutcome where
  | session (access_token : String)
  | refreshFailed
  | persistFailed
  | retryFailed
deriving Repr, DecidableEq

/-- The `Commands::Read` session establishment from `src/main.rs` (lines
269–300): try `create_imap_session` with the stored access token; on
failure, call `refresh_google_oauth_token` (`?` aborts on refresh failure),
build the new `StoredAccountData` with the refreshed access token and the
unchanged refresh token, `insert` it into the account map, persist the map
with `store_account_data` (`?` aborts on persist failure), then try
`create_imap_session` once more with the new token.  Returns the event
trace, the outcome, and the final in-memory account map. -/
def establish_read_session (env : ReadEnv) (email : String)
    (cred : StoredAccountData) (accounts : Accounts) :
    List SessionEvent × SessionOutcome × Accounts :=
  if env.openSession cred.access_token then
    ([SessionEvent.openAttempt cred.access_token],
      SessionOutcome.session cred.access_token, accounts)
  else
    match env.refreshToken cred.refresh_token with
    | none =>
      ([SessionEvent.openAttempt cred.access_token,
        SessionEvent.refreshCall cred.refresh_token],
        SessionOutcome.refreshFailed, accounts)
    | some newTok =>
      let data : StoredAccountData := ⟨newTok, cred.refresh_token⟩
      let updated := insertAccount accounts email data
      if env.persistOk then
        if env.openSession newTok then
          ([SessionEvent.openAttempt cred.access_token,
            SessionEvent.refreshCall cred.refresh_token,
            SessionEvent.persistCall updated,
            SessionEvent.openAttempt newTok],
            SessionOutcome.session newTok, updated)
        else
          ([SessionEvent.openAttempt cred.access_token,
            SessionEvent.refreshCall cred.refresh_token,
            SessionEvent.persistCall updated,
            SessionEvent.openAttempt newTok],
            SessionOutcome.retryFailed, updated)
      else
        ([SessionEvent.openAttempt cred.access_token,
          SessionEvent.refreshCall cred.refresh_token,
          SessionEvent.persistCall updated],
          SessionOutcome.persistFailed, updated)

/-- `GoogleOAuthTokenRequestResponse` from `src/google.rs`. -/
structure GoogleOAuthTokenRequestResponse where
  access_token : String
  refresh_token : String
deriving Repr, DecidableEq

/-- `GoogleOAuthTokenRefreshResponse` from `src/google.rs`. -/
structure GoogleOAuthTokenRefreshResponse where
  access_token : String
deriving Repr, DecidableEq

/-- An HTTP response from the token endpoint: its status code and the
abstract results of JSON-decoding the body into either response shape
(`none` = the body does not decode into that shape). -/
structure TokenEndpointResponse where
  status : Nat
  bodyTokenPair : Option GoogleOAuthTokenRequestResponse
  bodyAccessToken : Option GoogleOAuthTokenRefreshResponse
deriving Repr, DecidableEq

/-- The message of the external `reqwest` JSON-decode error (`res.json()`),
which does not mention the response status. -/
def decodeErrMsg : String := "error decoding response body"

/-- `request_google_oauth_token` from `src/google.rs` (the authorization
code exchange), as a function of the endpoint's response: on status 200 the
body is decoded, on any other status a fixed message without the status
code is returned. -/
def request_google_oauth_token (res : TokenEndpointResponse) :
    Except String GoogleOAuthTokenRequestResponse :=
  if res.status = 200 then
    match res.bodyTokenPair with
    | some body => Except.ok body
    | none => Except.error decodeErrMsg
  else Except.error "an error occurred while trying to retrieve access token"

/-- `refresh_google_oauth_token` from `src/google.rs`: same shape, but the
non-200 error message does append the status code. -/
def refresh_google_oauth_token (res : TokenEndpointResponse) :
    Except String GoogleOAuthTokenRefreshResponse :=
  if res.status = 200 then
    match res.bodyAccessToken with
    | some body => Except.ok body
    | none => Except.error decodeErrMsg
  else
    Except.error
      ("an error occurred while trying to retrieve access token, status code "
        ++ toString res.status)

/-- Failures of `fs::read_to_string`, split the way the source matches on
`err.kind()`. -/
inductive FsError where
  | notFound
  | other
deriving Repr, DecidableEq

/-- Failures surfaced by `StoredAccounts::load_data`. -/
inductive StoreError where
  | readFailed
  | decodeFailed
deriving Repr, DecidableEq

/-- `StoredAccounts::load_data` from `src/store_accounts.rs`, parameterized
over the external TOML decoder `toml::from_str`: a missing file is replaced
by the empty string before decoding, any other read error propagates. -/
def load_data (tomlDecode : String → Except StoreError Accounts)
    (readResult : Except FsError String) : Except StoreError Accounts :=
  match readResult with
  | Except.ok data => tomlDecode data
  | Except.error FsError.notFound => tomlDecode ""
  | Except.error FsError.other => Except.error StoreError.readFailed

/-- The sequence number recorded in one result slot of
`fetch_n_recent_mails` (an error slot carries none in the source; it is
projected to `0` here). -/
def slotOrdNum : Except MailError Mail → Nat
  | Except.ok m => m.ord_num
  | Except.error _ => 0

/-- The sequence numbers of a whole `fetch_n_recent_mails` result, `none`
when the call failed. -/
def resultOrdNums (r : Except Failure (List (Except MailError Mail))) :
    Option (List Nat) :=
  match r with
  | Except.ok mails => some (mails.map slotOrdNum)
  | Except.error _ => none

/-- The date instant of the message with sequence number `num` in `mbox`
(`0` for an unknown number or an absent date). -/
def itemDateTs (mbox : List ImapItem) (num : Nat) : Int :=
  match mbox.find? (fun item => item.message == num) with
  | some item => (item.dateHeader.map (fun d => d.ts)).getD 0
  | none => 0

/-- A fully parsable message for the specification's ordering scenario. -/
def scenarioItem (seq : Nat) (d : ChronoDateTime) : ImapItem :=
  ⟨seq, some d, RawBody.text "raw", some ⟨none, none, some d, none, "body"⟩⟩

/-- The specification's scenario mailbox: indices 1, 2, 3 dated 2024-01-03,
2024-01-01, 2024-01-02 (instants as days since 2023-12-31). -/
def scenarioMailbox : List ImapItem :=
  [scenarioItem 1 ⟨3, "Wed, 03 Jan 2024 00:00:00 +0000"⟩,
   scenarioItem 2 ⟨1, "Mon, 01 Jan 2024 00:00:00 +0000"⟩,
   scenarioItem 3 ⟨2, "Tue, 02 Jan 2024 00:00:00 +0000"⟩]

/-- A server holding the scenario mailbox under the name `"Inbox"`
(`MailBox::INBOX`). -/
def scenarioSession : ImapSession := ⟨[("Inbox", scenarioMailbox)]⟩

/-- A concrete environment for the session-establishment run: the stored
token `"A"` is rejected, refreshing `"R"` yields `"B"`, persisting
succeeds. -/
def envRefreshOk : ReadEnv :=
  ⟨fun t => t == "B", fun r => if r == "R" then some "B" else none, true⟩

/-- A one-message INBOX used to instantiate `fetch_top_n_msg_from_inbox`. -/
def inboxSessionW : ImapSession :=
  ⟨[("INBOX", [⟨1, none, RawBody.text "hello", none⟩])]⟩

/-- A concrete decoder with TOML's empty-document behavior, used to
instantiate `load_data`. -/
def tomlDecodeTrivial : String → Except StoreError Accounts :=
  fun s => if s = "" then Except.ok [] else Except.error StoreError.decodeFailed

/-- The sequence numbers `get_mails_sorted_by_date` produces when no
message panics: date/number pairs sorted ascending by date (stable),
reversed, projected to the numbers. -/
def rankedNums (mbox : List ImapItem) : List Nat :=
  (((mbox.map (fun item => (item.dateHeader.getD ⟨0, ""⟩, item.message))).mergeSort
      (fun a b => decide (a.1.ts ≤ b.1.ts))).reverse).map (fun p => p.2)

/-- The messages the second (full-body) fetch of `fetch_n_recent_mails`
returns: the messages among the first `n` ranked numbers, in mailbox
order. -/
def selectedItems (mbox : List ImapItem) (n : Nat) : List ImapItem :=
  mbox.filter (fun m => ((rankedNums mbox).take n).contains m.message)

/-- The result list `fetch_n_recent_mails` builds from the second fetch:
per-message parse results of the fetched messages, reversed. -/
def fetchedMails (mbox : List ImapItem) (n : Nat) : List (Except MailError Mail) :=
  ((selectedItems mbox n).map parseMailItem).reverse

theorem hashSetInsert_pairwise (hash : HeaderField → Nat)
    (s : List HeaderField) (x : HeaderField)
    (h : s.Pairwise (fun a b => hash a = hash b → HeaderField.eqv a b = false)) :
    (hashSetInsert hash s x).Pairwise
      (fun a b => hash a = hash b → HeaderField.eqv a b = false) := by
  unfold hashSetInsert
  by_cases hx : s.any (fun y => hash y == hash x && HeaderField.eqv y x) = true
  · simpa [hx] using h
  · simp only [hx, if_false, Bool.false_eq_true]
    rw [List.pairwise_append]
    refine ⟨h, by simp, ?_⟩
    intro a ha b hb
    simp only [List.mem_singleton] at hb
    subst hb
    intro hh
    cases heq : HeaderField.eqv a b with
    | false => rfl
    | true =>
      exact absurd (List.any_eq_true.mpr ⟨a, ha, by simp [hh, heq]⟩) hx

theorem hashSet_foldl_pairwise (hash : HeaderField → Nat)
    (xs : List HeaderField) :
    ∀ acc : List HeaderField,
      acc.Pairwise (fun a b => hash a = hash b → HeaderField.eqv a b = false) →
      (xs.foldl (hashSetInsert hash) acc).Pairwise
        (fun a b => hash a = hash b → HeaderField.eqv a b = false) := by
  induction xs with
  | nil => intro acc h; simpa using h
  | cons a l ih =>
    intro acc h
    exact ih _ (hashSetInsert_pairwise hash acc a h)

/-- C5 counterexample: `Subject(Some "a")` and `Subject(Some "b")` compare
equal under the tag-only `PartialEq`, yet inserting both leaves both in the
set: the derived `Hash` includes the predicate value, so the two land in
different buckets and the equality is never consulted — the set does not
retain at most one selector per tag. -/
theorem hashSet_retains_same_tag_selectors :
    HeaderField.eqv (HeaderField.Subject (some "a"))
        (HeaderField.Subject (some "b")) = true
    ∧ hashSetOfList derivedHash
        [HeaderField.Subject (some "a"), HeaderField.Subject (some "b")]
        = [HeaderField.Subject (some "a"), HeaderField.Subject (some "b")] := by
  exact ⟨by decide, by decide⟩

/-- C5 (amended): two selectors with the same field tag but different
predicate values compare equal (`PartialEq` is discriminant-only), but the
derived `Hash` hashes the payload too, breaking the `Hash`/`Eq` contract
`HashSet` relies on: insertion deduplicates only an element whose bucket
(same hash) already holds a tag-equal element — in particular an identical
selector — while same-tag selectors with different hashes are all
retained; the stored elements are merely pairwise distinct under
hash-and-tag equality, not one-per-tag. -/
theorem headerField_tag_equality_and_hash_dedup :
    (∀ a b : HeaderField, HeaderField.eqv a b = true ↔ a.discriminant = b.discriminant)
    ∧ (∀ v₁ v₂ : Option String,
        HeaderField.eqv (HeaderField.Subject v₁) (HeaderField.Subject v₂) = true)
    ∧ (∀ (hash : HeaderField → Nat) (fields : List HeaderField),
        (hashSetOfList hash fields).Pairwise
          (fun a b => hash a = hash b → HeaderField.eqv a b = false))
    ∧ hashSetOfList derivedHash
        [HeaderField.Subject (some "a"), HeaderField.Subject (some "a")]
        = [HeaderField.Subject (some "a")] := by
  refine ⟨?_, ?_, ?_, by decide⟩
  · intro a b; simp [HeaderField.eqv]
  · intro v₁ v₂; simp [HeaderField.eqv, HeaderField.discriminant]
  · intro hash fields
    exact hashSet_foldl_pairwise hash fields [] (by simp)

theorem headerField_hash_dedup_witness :
    (hashSetOfList derivedHash [HeaderField.Subject (some "x")]).Pairwise
      (fun a b => derivedHash a = derivedHash b → HeaderField.eqv a b = false) :=
  headerField_tag_equality_and_hash_dedup.2.2.1 derivedHash
    [HeaderField.Subject (some "x")]

/-- C8: `filter_str` returns `none` exactly when the field set is empty,
and in particular on the empty set for both flag values. -/
theorem filter_str_none_iff_empty :
    (∀ (fields : List HeaderField) (negated : Bool),
        HeaderFilter.filter_str fields negated = none ↔ fields = [])
    ∧ HeaderFilter.filter_str [] false = none
    ∧ HeaderFilter.filter_str [] true = none := by
  refine ⟨?_, rfl, rfl⟩
  intro fields negated
  cases fields with
  | nil => simp [HeaderFilter.filter_str]
  | cons a l => simp [HeaderFilter.filter_str]

/-- C6 counterexample: the rendered filter depends on the predicate value
attached to a selector (so the value is not ignored), and a `From` selector
is rendered under the tag `TO`, not `FROM`. -/
theorem filter_str_value_not_ignored :
    HeaderFilter.filter_str [HeaderField.Subject (some "x")] false
        ≠ HeaderFilter.filter_str [HeaderField.Subject (some "y")] false
    ∧ HeaderFilter.filter_str [HeaderField.From none] false
        = some "HEADER.FIELDS (TO )" := by
  exact ⟨by decide, by decide⟩

/-- C6 (amended): for every non-empty selector sequence, `filter_str`
returns `some` expression consisting of the per-field renderings joined by
`", "` and wrapped with the `.NOT` marker exactly when `negated` is true;
each field renders as its tag followed by the attached predicate value
(empty when absent) — so the value is included, not ignored — and the
`From` field is rendered under the tag `TO`.  The spec's two scenarios are
evaluated with the Date-first iteration order. -/
theorem filter_str_rendering :
    (∀ (fields : List HeaderField) (negated : Bool), fields ≠ [] →
        HeaderFilter.filter_str fields negated =
          some ("HEADER.FIELDS" ++ (if negated then ".NOT" else "") ++ " ("
            ++ String.intercalate ", " (fields.map HeaderField.filter_str) ++ ")"))
    ∧ (∀ value : Option String,
        HeaderField.filter_str (HeaderField.From value) = "TO " ++ value.getD "")
    ∧ (∀ v₁ v₂ : String, v₁ ≠ v₂ →
        HeaderField.filter_str (HeaderField.Subject (some v₁))
          ≠ HeaderField.filter_str (HeaderField.Subject (some v₂)))
    ∧ HeaderFilter.filter_str [HeaderField.Date none] false
        = some "HEADER.FIELDS (DATE )"
    ∧ HeaderFilter.filter_str [HeaderField.Date none, HeaderField.Subject none] true
        = some "HEADER.FIELDS.NOT (DATE , SUBJECT )" := by
  refine ⟨?_, fun value => rfl, ?_, by decide, by decide⟩
  · intro fields negated hne
    cases fields with
    | nil => exact absurd rfl hne
    | cons a l => simp [HeaderFilter.filter_str]
  · intro v₁ v₂ hne h
    apply hne
    simp only [HeaderField.filter_str, Option.getD_some] at h
    have hdata := String.ext_iff.mp h
    rw [String.data_append, String.data_append, List.append_right_inj] at hdata
    exact String.ext hdata

theorem filter_str_rendering_witness :
    HeaderFilter.filter_str [HeaderField.Subject (some "x")] true
        = some ("HEADER.FIELDS" ++ (if true then ".NOT" else "") ++ " ("
            ++ String.intercalate ", "
                ([HeaderField.Subject (some "x")].map HeaderField.filter_str) ++ ")")
    ∧ HeaderField.filter_str (HeaderField.Subject (some "x"))
        ≠ HeaderField.filter_str (HeaderField.Subject (some "y")) :=
  ⟨filter_str_rendering.1 [HeaderField.Subject (some "x")] true (by simp),
   filter_str_rendering.2.2.1 "x" "y" (by decide)⟩

/-- C7 counterexample: two selector sets that are equal under the set's
element equality, presented in the two iteration orders a `HashSet` may
produce, render to different strings — `build` is not deterministic over
equal field sets. -/
theorem filter_str_iteration_order_dependent :
    sameFieldSet [HeaderField.Date none, HeaderField.Subject none]
        [HeaderField.Subject none, HeaderField.Date none] = true
    ∧ HeaderFilter.filter_str [HeaderField.Date none, HeaderField.Subject none] false
        ≠ HeaderFilter.filter_str [HeaderField.Subject none, HeaderField.Date none] false := by
  exact ⟨by decide, by decide⟩

/-- C7 (amended): the rendered string is a function only of the sequence of
per-field renderings in iteration order and the `negated` flag — two calls
whose iteration sequences render equally yield the identical string; no
canonical ordering of the set is imposed beyond that. -/
theorem filter_str_deterministic_in_rendered_sequence
    (fields₁ fields₂ : List HeaderField) (negated : Bool)
    (h : fields₁.map HeaderField.filter_str = fields₂.map HeaderField.filter_str) :
    HeaderFilter.filter_str fields₁ negated = HeaderFilter.filter_str fields₂ negated := by
  have hemp : fields₁.isEmpty = fields₂.isEmpty := by
    cases fields₁ <;> cases fields₂ <;> simp_all
  unfold HeaderFilter.filter_str
  rw [hemp, h]

theorem filter_str_deterministic_witness :
    HeaderFilter.filter_str [HeaderField.Date none] true
      = HeaderFilter.filter_str [HeaderField.Date (some ⟨0, ""⟩)] true :=
  filter_str_deterministic_in_rendered_sequence
    [HeaderField.Date none] [HeaderField.Date (some ⟨0, ""⟩)] true (by decide)

/-- C9 counterexample: on a non-200 response (status 403, so a status is
available) the code-exchange error is a fixed message containing no digit
at all, hence it does not carry the response status. -/
theorem request_token_error_lacks_status :
    request_google_oauth_token ⟨403, some ⟨"at", "rt"⟩, none⟩
        = Except.error "an error occurred while trying to retrieve access token"
    ∧ ("an error occurred while trying to retrieve access token".data.any
        Char.isDigit) = false := by
  exact ⟨rfl, by decide⟩

/-- C9 (amended): `exchange_code` succeeds exactly when the endpoint
responds 200 with a body decodable into both tokens; on any other status it
returns a fixed error message that does not include the response status —
only the refresh endpoint's error message appends the status code. -/
theorem request_token_success_iff_status_free_error :
    (∀ res : TokenEndpointResponse,
        (∃ body, request_google_oauth_token res = Except.ok body)
          ↔ (res.status = 200 ∧ res.bodyTokenPair.isSome = true))
    ∧ (∀ res : TokenEndpointResponse, res.status ≠ 200 →
        request_google_oauth_token res
          = Except.error "an error occurred while trying to retrieve access token")
    ∧ (∀ res : TokenEndpointResponse, res.status ≠ 200 →
        refresh_google_oauth_token res
          = Except.error
              ("an error occurred while trying to retrieve access token, status code "
                ++ toString res.status)) := by
  refine ⟨?_, ?_, ?_⟩
  · intro res
    unfold request_google_oauth_token
    by_cases hs : res.status = 200
    · cases hb : res.bodyTokenPair with
      | some body => simp [hs, hb]
      | none => simp [hs, hb, decodeErrMsg]
    · simp [hs]
  · intro res hs
    simp [request_google_oauth_token, hs]
  · intro res hs
    simp [refresh_google_oauth_token, hs]

theorem request_token_witness :
    request_google_oauth_token ⟨500, none, none⟩
        = Except.error "an error occurred while trying to retrieve access token"
    ∧ refresh_google_oauth_token ⟨500, none, none⟩
        = Except.error
            ("an error occurred while trying to retrieve access token, status code "
              ++ toString (500 : Nat))
    ∧ (∃ body,
        request_google_oauth_token ⟨200, some ⟨"a", "r"⟩, none⟩ = Except.ok body) :=
  ⟨request_token_success_iff_status_free_error.2.1 ⟨500, none, none⟩ (by decide),
   request_token_success_iff_status_free_error.2.2 ⟨500, none, none⟩ (by decide),
   (request_token_success_iff_status_free_error.1 ⟨200, some ⟨"a", "r"⟩, none⟩).mpr
     (by exact ⟨rfl, rfl⟩)⟩

/-- C10: `load_data` yields the empty credential mapping (not an error)
when the storage file is absent or empty, and propagates any other read
failure; the external TOML decoder is abstracted by the hypothesis that the
empty document decodes to the empty table. -/
theorem load_data_absent_or_empty
    (tomlDecode : String → Except StoreError Accounts)
    (hEmptyDoc : tomlDecode "" = Except.ok []) :
    load_data tomlDecode (Except.error FsError.notFound) = Except.ok []
    ∧ load_data tomlDecode (Except.ok "") = Except.ok []
    ∧ load_data tomlDecode (Except.error FsError.other)
        = Except.error StoreError.readFailed := by
  exact ⟨hEmptyDoc, hEmptyDoc, rfl⟩

theorem load_data_witness :
    load_data tomlDecodeTrivial (Except.error FsError.notFound) = Except.ok []
    ∧ load_data tomlDecodeTrivial (Except.ok "") = Except.ok []
    ∧ load_data tomlDecodeTrivial (Except.error FsError.other)
        = Except.error StoreError.readFailed :=
  load_data_absent_or_empty tomlDecodeTrivial (by simp [tomlDecodeTrivial])

/-- C4 (code evaluated at the failing input): a mailbox whose single
message lacks a parsable Date header makes the ranking pass panic (the
source's `unwrap`), instead of producing a per-message error result. -/
theorem get_mails_sorted_panics_on_missing_date :
    get_mails_sorted_by_date [⟨1, none, RawBody.text "raw", none⟩]
        = Except.error Failure.panicked := by
  rfl


@[simp] theorem exceptBind_ok {α β ε : Type} (a : α) (f : α → Except ε β) :
    (Except.ok a >>= f) = f a := rfl

@[simp] theorem exceptBind_error {α β ε : Type} (e : ε) (f : α → Except ε β) :
    ((Except.error e : Except ε α) >>= f) = Except.error e := rfl

@[simp] theorem exceptMapError_ok {α ε ε' : Type} (f : ε → ε') (a : α) :
    Except.mapError f (Except.ok a : Except ε α) = Except.ok a := rfl

@[simp] theorem exceptMapError_error {α ε ε' : Type} (f : ε → ε') (e : ε) :
    Except.mapError f (Except.error e : Except ε α) = Except.error (f e) := rfl

@[simp] theorem exceptPure_eq_ok {α ε : Type} (a : α) :
    (pure a : Except ε α) = Except.ok a := rfl

theorem filter_single_seq_length_le_one (l : List ImapItem) (n : Nat)
    (h : (l.map (fun item => item.message)).Nodup) :
    (l.filter (fun m => [n].contains m.message)).length ≤ 1 := by
  induction l with
  | nil => simp
  | cons a l ih =>
    simp only [List.map_cons, List.nodup_cons] at h
    obtain ⟨hna, hnd⟩ := h
    by_cases ha : [n].contains a.message = true
    · have han : a.message = n := by simpa using ha
      have hrest : l.filter (fun m => [n].contains m.message) = [] := by
        rw [List.filter_eq_nil_iff]
        intro m hm
        simp only [List.contains_cons, List.contains_nil, Bool.or_false, beq_iff_eq]
        intro he
        exact hna (List.mem_map.mpr ⟨m, hm, by rw [he, han]⟩)
      rw [List.filter_cons, if_pos ha, hrest]
      simp
    · rw [List.filter_cons, if_neg ha]
      exact ih hnd

/-- C2: the read path of the binary fetches the single sequence number `n`
from the mailbox `"INBOX"`, so whenever it succeeds it returns at most one
message — each returned body belonging to the message numbered exactly
`n` — rather than the `n` most recently dated messages. -/
theorem fetch_top_n_at_most_one
    (session : ImapSession) (mbox : List ImapItem) (n : Nat)
    (hsel : session.select "INBOX" = Except.ok mbox)
    (hnodup : (mbox.map (fun item => item.message)).Nodup)
    (mails : List String)
    (hok : fetch_top_n_msg_from_inbox session n = Except.ok mails) :
    mails.length ≤ 1
    ∧ ∀ s ∈ mails, ∃ item, item ∈ mbox ∧ item.message = n
        ∧ item.body = RawBody.text s := by
  unfold fetch_top_n_msg_from_inbox at hok
  rw [hsel] at hok
  simp only [exceptMapError_ok, exceptBind_ok] at hok
  by_cases hn : n = 0
  · subst hn
    rw [show fetchSeqSet mbox [0] = Except.error ImapError.badFetchSet from by
      simp [fetchSeqSet]] at hok
    simp at hok
  · rw [show fetchSeqSet mbox [n]
        = Except.ok (mbox.filter (fun m => [n].contains m.message)) from by
      simp [fetchSeqSet, Ne.symm hn]] at hok
    simp only [exceptMapError_ok, exceptBind_ok] at hok
    set dec := fun msg : ImapItem =>
      match msg.body with
      | RawBody.text s => Except.ok s
      | RawBody.invalidUtf8 => Except.error MailError.utf8Invalid
      | RawBody.missing => Except.error MailError.noBody with hdec
    set messages := mbox.filter (fun m => [n].contains m.message) with hmsgs
    cases hfe : firstError (messages.map dec) with
    | some e =>
      rw [hfe] at hok
      exact absurd hok (by simp)
    | none =>
      rw [hfe] at hok
      simp only [exceptPure_eq_ok, Except.ok.injEq] at hok
      have hmails : mails = (messages.map dec).filterMap (fun m => m.toOption) :=
        hok.symm
      constructor
      · calc mails.length
            ≤ (messages.map dec).length := by
              rw [hmails]; exact List.length_filterMap_le _ _
          _ = messages.length := by simp
          _ ≤ 1 := filter_single_seq_length_le_one mbox n hnodup
      · intro s hs
        rw [hmails] at hs
        rcases List.mem_filterMap.mp hs with ⟨r, hr, hrs⟩
        rcases List.mem_map.mp hr with ⟨msg, hmsg, hrdef⟩
        rcases List.mem_filter.mp hmsg with ⟨hmem, hcond⟩
        refine ⟨msg, hmem, by simpa using hcond, ?_⟩
        rw [← hrdef] at hrs
        cases hb : msg.body with
        | text t =>
          rw [hdec] at hrs
          simp only [hb, Except.toOption] at hrs
          cases hrs
          rfl
        | invalidUtf8 =>
          rw [hdec] at hrs
          simp [hb, Except.toOption] at hrs
        | missing =>
          rw [hdec] at hrs
          simp [hb, Except.toOption] at hrs

theorem fetch_top_n_witness :
    (["hello"] : List String).length ≤ 1
    ∧ ∀ s ∈ (["hello"] : List String),
        ∃ item, item ∈ [(⟨1, none, RawBody.text "hello", none⟩ : ImapItem)]
          ∧ item.message = 1 ∧ item.body = RawBody.text s :=
  fetch_top_n_at_most_one inboxSessionW
    [⟨1, none, RawBody.text "hello", none⟩] 1 rfl (by simp) ["hello"] rfl

theorem lookupAccount_insertAccount (accounts : Accounts) (key : String)
    (value : StoredAccountData) :
    lookupAccount (insertAccount accounts key value) key = some value := by
  unfold insertAccount
  by_cases hk : accounts.any (fun p => p.1 == key) = true
  · rw [if_pos hk]
    induction accounts with
    | nil => simp at hk
    | cons a l ih =>
      by_cases ha : a.1 == key
      · simp [lookupAccount, List.find?, ha]
      · simp only [List.map_cons, if_neg ha]
        have hl : l.any (fun p => p.1 == key) = true := by
          rcases List.any_eq_true.mp hk with ⟨p, hp, hpk⟩
          rcases List.mem_cons.mp hp with hpa | hpl
          · exact absurd (hpa ▸ hpk) (by simpa using ha)
          · exact List.any_eq_true.mpr ⟨p, hpl, hpk⟩
        have := ih hl
        simpa [lookupAccount, List.find?, ha] using this
  · rw [if_neg hk]
    induction accounts with
    | nil => simp [lookupAccount, List.find?]
    | cons a l ih =>
      have ha : (a.1 == key) = false := by
        by_contra hcon
        exact hk (List.any_eq_true.mpr ⟨a, List.mem_cons_self a l,
          by simpa using hcon⟩)
      have hl : ¬ l.any (fun p => p.1 == key) = true := by
        intro hcon
        rcases List.any_eq_true.mp hcon with ⟨p, hp, hpk⟩
        exact hk (List.any_eq_true.mpr ⟨p, List.mem_cons_of_mem a hp, hpk⟩)
      simp only [List.cons_append, lookupAccount, List.find?, ha]
      simpa [lookupAccount] using ih hl

/-- C3: when the first session-open attempt fails and the token refresh
succeeds, the trace of effects is exactly: failed open with the old token,
refresh with the stored refresh token, persist of the account map updated
with the new access token (refresh token unchanged), and — only if the
persist succeeded — exactly one further open attempt with the new token; a
persist failure aborts with `persistFailed` and no retry is made. -/
theorem establish_read_session_refresh_persist_before_retry
    (env : ReadEnv) (email : String) (cred : StoredAccountData)
    (accounts : Accounts) (newTok : String)
    (hfail : env.openSession cred.access_token = false)
    (hrefresh : env.refreshToken cred.refresh_token = some newTok) :
    (env.persistOk = true →
      (establish_read_session env email cred accounts).1 =
        [SessionEvent.openAttempt cred.access_token,
         SessionEvent.refreshCall cred.refresh_token,
         SessionEvent.persistCall
           (insertAccount accounts email ⟨newTok, cred.refresh_token⟩),
         SessionEvent.openAttempt newTok]
      ∧ lookupAccount
          (insertAccount accounts email ⟨newTok, cred.refresh_token⟩) email
          = some ⟨newTok, cred.refresh_token⟩)
    ∧ (env.persistOk = false →
      (establish_read_session env email cred accounts).1 =
        [SessionEvent.openAttempt cred.access_token,
         SessionEvent.refreshCall cred.refresh_token,
         SessionEvent.persistCall
           (insertAccount accounts email ⟨newTok, cred.refresh_token⟩)]
      ∧ (establish_read_session env email cred accounts).2.1
          = SessionOutcome.persistFailed) := by
  constructor
  · intro hp
    unfold establish_read_session
    rw [hfail, hrefresh]
    constructor
    · by_cases ho : env.openSession newTok = true
      · simp [hp, ho]
      · simp [hp, ho]
    · exact lookupAccount_insertAccount accounts email ⟨newTok, cred.refresh_token⟩
  · intro hp
    unfold establish_read_session
    rw [hfail, hrefresh]
    simp [hp]

theorem establish_read_session_witness :
    (establish_read_session envRefreshOk "me" ⟨"A", "R"⟩ []).1 =
      [SessionEvent.openAttempt "A",
       SessionEvent.refreshCall "R",
       SessionEvent.persistCall (insertAccount [] "me" ⟨"B", "R"⟩),
       SessionEvent.openAttempt "B"]
    ∧ lookupAccount (insertAccount [] "me" ⟨"B", "R"⟩) "me" = some ⟨"B", "R"⟩ :=
  (establish_read_session_refresh_persist_before_retry envRefreshOk "me"
    ⟨"A", "R"⟩ [] "B" (by decide) (by decide)).1 rfl

theorem mapM_dateOfItem_eq (l : List ImapItem)
    (h : ∀ item ∈ l, item.dateHeader.isSome = true) :
    l.mapM dateOfItem
      = Except.ok (l.map (fun item => (item.dateHeader.getD ⟨0, ""⟩, item.message))) := by
  induction l with
  | nil => rfl
  | cons a l ih =>
    have ha := h a (List.mem_cons_self a l)
    cases hd : a.dateHeader with
    | none => rw [hd] at ha; simp at ha
    | some d =>
      rw [List.mapM_cons]
      have hda : dateOfItem a = Except.ok (d, a.message) := by
        simp [dateOfItem, hd]
      rw [hda, ih (fun x hx => h x (List.mem_cons_of_mem a hx))]
      simp [hd]

theorem fetchSeqSet_subset (mbox : List ImapItem) (seqs : List Nat)
    (hne : seqs ≠ [])
    (hpos : ∀ x ∈ seqs, 1 ≤ x) :
    fetchSeqSet mbox seqs
      = Except.ok (mbox.filter (fun m => seqs.contains m.message)) := by
  unfold fetchSeqSet
  have h1 : seqs.isEmpty = false := by
    cases seqs with
    | nil => exact absurd rfl hne
    | cons a l => rfl
  have h2 : seqs.contains 0 = false := by
    by_contra hcon
    have h0 : (0 : Nat) ∈ seqs := by simpa using hcon
    exact absurd (hpos 0 h0) (by omega)
  rw [h1, h2]
  rfl

theorem fetchSeqSet_all (mbox : List ImapItem) (hne : mbox ≠ [])
    (hpos : ∀ item ∈ mbox, 1 ≤ item.message) :
    fetchSeqSet mbox (mbox.map (fun item => item.message)) = Except.ok mbox := by
  rw [fetchSeqSet_subset]
  · congr 1
    rw [List.filter_eq_self]
    intro item hitem
    exact List.elem_iff.mpr (List.mem_map.mpr ⟨item, hitem, rfl⟩)
  · intro hcon
    exact hne (by simpa using congrArg List.length hcon)
  · intro x hx
    rcases List.mem_map.mp hx with ⟨item, hitem, rfl⟩
    exact hpos item hitem

theorem find?_message_unique (mbox : List ImapItem)
    (hnd : (mbox.map (fun i => i.message)).Nodup)
    (item : ImapItem) (hm : item ∈ mbox) :
    mbox.find? (fun i => i.message == item.message) = some item := by
  induction mbox with
  | nil => simp at hm
  | cons a l ih =>
    simp only [List.map_cons, List.nodup_cons] at hnd
    obtain ⟨hna, hndl⟩ := hnd
    rcases List.mem_cons.mp hm with rfl | hml
    · simp [List.find?]
    · have ha : (a.message == item.message) = false := by
        by_contra hcon
        have : a.message = item.message := by simpa using hcon
        exact hna (List.mem_map.mpr ⟨item, hml, this.symm⟩)
      rw [List.find?]
      rw [ha]
      exact ih hndl hml

theorem dated_pair_coherent (mbox : List ImapItem)
    (hnd : (mbox.map (fun i => i.message)).Nodup)
    (hdates : ∀ item ∈ mbox, item.dateHeader.isSome = true) :
    ∀ p ∈ mbox.map (fun item => (item.dateHeader.getD ⟨0, ""⟩, item.message)),
      itemDateTs mbox p.2 = p.1.ts := by
  intro p hp
  rcases List.mem_map.mp hp with ⟨item, hi, rfl⟩
  unfold itemDateTs
  rw [find?_message_unique mbox hnd item hi]
  cases hd : item.dateHeader with
  | none =>
    have := hdates item hi
    rw [hd] at this
    simp at this
  | some d => simp [hd]

theorem filter_map_message_perm (mbox : List ImapItem) (seqs : List Nat)
    (hnd : (mbox.map (fun i => i.message)).Nodup)
    (hseqnd : seqs.Nodup)
    (hsub : ∀ x ∈ seqs, x ∈ mbox.map (fun i => i.message)) :
    ((mbox.filter (fun m => seqs.contains m.message)).map
        (fun i => i.message)).Perm seqs := by
  have hnd2 : ((mbox.filter (fun m => seqs.contains m.message)).map
      (fun i => i.message)).Nodup :=
    List.Sublist.nodup
      ((List.filter_sublist mbox).map (fun i => i.message)) hnd
  rw [List.perm_ext_iff_of_nodup hnd2 hseqnd]
  intro a
  constructor
  · intro ha
    rcases List.mem_map.mp ha with ⟨item, hitem, rfl⟩
    rcases List.mem_filter.mp hitem with ⟨hmem, hcond⟩
    exact List.elem_iff.mp hcond
  · intro ha
    rcases List.mem_map.mp (hsub a ha) with ⟨item, hitem, rfl⟩
    exact List.mem_map.mpr ⟨item,
      List.mem_filter.mpr ⟨hitem, List.elem_iff.mpr ha⟩, rfl⟩

/-- C1 counterexample: on the specification's scenario mailbox (indices
[1,2,3] dated [2024-01-03, 2024-01-01, 2024-01-02]),
`fetch_n_recent_mails(2)` yields the messages at indices [3, 1] in that
order — not [1, 3] newest-first as claimed: the provider's batch fetch
returns the selected messages in ascending index order and the code merely
reverses that order. -/
theorem fetch_n_recent_scenario_not_newest_first :
    resultOrdNums (fetch_n_recent_mails "Inbox" 2 scenarioSession) = some [3, 1]
    ∧ resultOrdNums (fetch_n_recent_mails "Inbox" 2 scenarioSession) ≠ some [1, 3] := by
  have hsort : get_mails_sorted_by_date scenarioMailbox = Except.ok [1, 3, 2] := by
    unfold get_mails_sorted_by_date
    simp only []
    rw [fetchSeqSet_all scenarioMailbox (by decide) (by decide)]
    simp only [exceptMapError_ok, exceptBind_ok]
    rw [mapM_dateOfItem_eq _ (by decide)]
    simp only [exceptBind_ok]
    simp [scenarioMailbox, scenarioItem, List.mergeSort, List.merge]
  have hfetch : fetch_n_recent_mails "Inbox" 2 scenarioSession
      = Except.ok (((scenarioMailbox.filter
          (fun m => ([1, 3] : List Nat).contains m.message)).map
            parseMailItem).reverse) := by
    unfold fetch_n_recent_mails
    rw [show scenarioSession.select "Inbox" = Except.ok scenarioMailbox from rfl]
    simp only [exceptMapError_ok, exceptBind_ok]
    rw [hsort]
    simp only [exceptBind_ok]
    rfl
  rw [hfetch]
  exact ⟨by rfl, by decide⟩

/-- C1 (amended): for every well-formed non-empty mailbox (ascending
distinct positive sequence numbers, every Date header parsable, every body
parsable) and every `n ≥ 1`: the ranking pass returns a permutation of all
sequence numbers ordered by descending date; `fetch_n_recent_mails`
succeeds with exactly `min n k` result slots holding precisely the
`min n k` most recently dated messages — but ordered by **descending
sequence number** (the reverse of the provider's ascending-index batch
fetch order), not newest-first by date as the claim states.  On an empty
mailbox (`k = 0`) the call does not return `0` slots: the ranking pass
issues a fetch with an empty sequence set, which the server rejects, so
the whole call fails with a protocol error (final conjunct). -/
theorem fetch_n_recent_mails_count_and_order
    (mailboxName : String) (mbox : List ImapItem) (n : Nat)
    (hsorted : mbox.Pairwise (fun a b => a.message < b.message))
    (hpos : ∀ item ∈ mbox, 1 ≤ item.message)
    (hdates : ∀ item ∈ mbox, item.dateHeader.isSome = true)
    (hparse : ∀ item ∈ mbox, (∃ s, item.body = RawBody.text s)
        ∧ item.parsed.isSome = true)
    (hne : mbox ≠ []) (hn : 1 ≤ n) :
    get_mails_sorted_by_date mbox = Except.ok (rankedNums mbox)
    ∧ (rankedNums mbox).Perm (mbox.map (fun item => item.message))
    ∧ (rankedNums mbox).Pairwise
        (fun i j => itemDateTs mbox j ≤ itemDateTs mbox i)
    ∧ fetch_n_recent_mails mailboxName n (ImapSession.mk [(mailboxName, mbox)])
        = Except.ok (fetchedMails mbox n)
    ∧ (fetchedMails mbox n).length = min n mbox.length
    ∧ ((fetchedMails mbox n).map slotOrdNum).Perm ((rankedNums mbox).take n)
    ∧ ((fetchedMails mbox n).map slotOrdNum).Pairwise (fun i j => j < i)
    ∧ fetch_n_recent_mails mailboxName n (ImapSession.mk [(mailboxName, [])])
        = Except.error (Failure.imap ImapError.badFetchSet) := by
  have hEmpty : fetch_n_recent_mails mailboxName n (ImapSession.mk [(mailboxName, [])])
      = Except.error (Failure.imap ImapError.badFetchSet) := by
    unfold fetch_n_recent_mails
    rw [show (ImapSession.mk [(mailboxName, [])]).select mailboxName
        = Except.ok ([] : List ImapItem) from by simp [ImapSession.select, List.find?]]
    simp only [exceptMapError_ok, exceptBind_ok]
    rw [show get_mails_sorted_by_date []
        = Except.error (Failure.imap ImapError.badFetchSet) from rfl]
    simp only [exceptBind_error]
  have hnd : (mbox.map (fun i => i.message)).Nodup := by
    have h1 : (mbox.map (fun i => i.message)).Pairwise (fun a b => a < b) :=
      List.pairwise_map.mpr hsorted
    exact h1.imp (fun hab => Nat.ne_of_lt hab)
  have hA : get_mails_sorted_by_date mbox = Except.ok (rankedNums mbox) := by
    unfold get_mails_sorted_by_date rankedNums
    simp only []
    rw [fetchSeqSet_all mbox hne hpos]
    simp only [exceptMapError_ok, exceptBind_ok]
    rw [mapM_dateOfItem_eq mbox hdates]
    simp only [exceptBind_ok, exceptPure_eq_ok]
  have hpermB : (rankedNums mbox).Perm (mbox.map (fun i => i.message)) := by
    unfold rankedNums
    have h1 := List.mergeSort_perm
      (mbox.map (fun item => (item.dateHeader.getD ⟨0, ""⟩, item.message)))
      (fun a b => decide (a.1.ts ≤ b.1.ts))
    have h2 := (List.reverse_perm _).trans h1
    have h3 := h2.map (fun p : ChronoDateTime × Nat => p.2)
    simpa [List.map_map, Function.comp] using h3
  have hnumsnd : (rankedNums mbox).Nodup := hpermB.nodup_iff.mpr hnd
  have hpairC : (rankedNums mbox).Pairwise
      (fun i j => itemDateTs mbox j ≤ itemDateTs mbox i) := by
    unfold rankedNums
    rw [List.pairwise_map]
    have htrans : ∀ (a b c : ChronoDateTime × Nat),
        (fun a b : ChronoDateTime × Nat => decide (a.1.ts ≤ b.1.ts)) a b →
        (fun a b : ChronoDateTime × Nat => decide (a.1.ts ≤ b.1.ts)) b c →
        (fun a b : ChronoDateTime × Nat => decide (a.1.ts ≤ b.1.ts)) a c := by
      intro a b c hab hbc
      simp only [decide_eq_true_eq] at hab hbc ⊢
      exact le_trans hab hbc
    have htotal : ∀ (a b : ChronoDateTime × Nat),
        ((fun a b : ChronoDateTime × Nat => decide (a.1.ts ≤ b.1.ts)) a b
          || (fun a b : ChronoDateTime × Nat => decide (a.1.ts ≤ b.1.ts)) b a) := by
      intro a b
      simpa using Int.le_total a.1.ts b.1.ts
    have hsorted2 := List.sorted_mergeSort htrans htotal
      (mbox.map (fun item => (item.dateHeader.getD ⟨0, ""⟩, item.message)))
    have hrev := List.pairwise_reverse.mpr hsorted2
    refine List.Pairwise.imp_of_mem ?_ hrev
    intro p q hp hq hle
    have hco := dated_pair_coherent mbox hnd hdates
    have hp2 : p ∈ mbox.map
        (fun item => (item.dateHeader.getD ⟨0, ""⟩, item.message)) := by
      simpa using hp
    have hq2 : q ∈ mbox.map
        (fun item => (item.dateHeader.getD ⟨0, ""⟩, item.message)) := by
      simpa using hq
    rw [hco p hp2, hco q hq2]
    simpa using hle
  have hlenranked : (rankedNums mbox).length = mbox.length := by
    simpa using hpermB.length_eq
  have hne2 : rankedNums mbox ≠ [] := by
    intro hcon
    rw [hcon] at hlenranked
    exact hne (List.eq_nil_of_length_eq_zero hlenranked.symm)
  have htake_ne : (rankedNums mbox).take n ≠ [] := by
    intro hcon
    rcases List.take_eq_nil_iff.mp hcon with h0 | hnil
    · omega
    · exact hne2 hnil
  have htake_sub : ∀ x ∈ (rankedNums mbox).take n,
      x ∈ mbox.map (fun i => i.message) := by
    intro x hx
    exact hpermB.mem_iff.mp (List.mem_of_mem_take hx)
  have htake_pos : ∀ x ∈ (rankedNums mbox).take n, 1 ≤ x := by
    intro x hx
    rcases List.mem_map.mp (htake_sub x hx) with ⟨item, hitem, rfl⟩
    exact hpos item hitem
  have hfetch2 : fetchSeqSet mbox ((rankedNums mbox).take n)
      = Except.ok (selectedItems mbox n) := by
    unfold selectedItems
    exact fetchSeqSet_subset mbox _ htake_ne htake_pos
  have hD : fetch_n_recent_mails mailboxName n (ImapSession.mk [(mailboxName, mbox)])
      = Except.ok (fetchedMails mbox n) := by
    unfold fetch_n_recent_mails
    rw [show (ImapSession.mk [(mailboxName, mbox)]).select mailboxName
        = Except.ok mbox from by simp [ImapSession.select, List.find?]]
    simp only [exceptMapError_ok, exceptBind_ok]
    rw [hA]
    simp only [exceptBind_ok]
    rw [hfetch2]
    simp only [exceptMapError_ok, exceptBind_ok, exceptPure_eq_ok]
    rfl
  have hE : (fetchedMails mbox n).map slotOrdNum
      = ((selectedItems mbox n).map (fun i => i.message)).reverse := by
    unfold fetchedMails
    rw [List.map_reverse]
    congr 1
    rw [List.map_map]
    apply List.map_congr_left
    intro item hitem
    have hmem : item ∈ mbox := (List.mem_filter.mp hitem).1
    rcases hparse item hmem with ⟨⟨s, hbody⟩, hpsome⟩
    cases hp : item.parsed with
    | none => rw [hp] at hpsome; simp at hpsome
    | some pm =>
      simp [Function.comp, parseMailItem, hbody, hp, slotOrdNum, Mail.from_msg]
  have hselperm : ((selectedItems mbox n).map (fun i => i.message)).Perm
      ((rankedNums mbox).take n) := by
    unfold selectedItems
    exact filter_map_message_perm mbox _ hnd
      (List.Nodup.sublist (List.take_sublist n _) hnumsnd) htake_sub
  have hF : (fetchedMails mbox n).length = min n mbox.length := by
    have h1 := congrArg List.length hE
    simp only [List.length_map, List.length_reverse] at h1
    have h2 : (selectedItems mbox n).length = ((rankedNums mbox).take n).length := by
      simpa using hselperm.length_eq
    rw [h1, h2, List.length_take, hlenranked]
  have hG : ((fetchedMails mbox n).map slotOrdNum).Perm
      ((rankedNums mbox).take n) := by
    rw [hE]
    exact (List.reverse_perm _).trans hselperm
  have hH : ((fetchedMails mbox n).map slotOrdNum).Pairwise
      (fun i j => j < i) := by
    rw [hE, List.pairwise_reverse, List.pairwise_map]
    unfold selectedItems
    exact hsorted.filter _
  exact ⟨hA, hpermB, hpairC, hD, hF, hG, hH, hEmpty⟩

theorem fetch_n_recent_count_order_witness :
    (fetchedMails scenarioMailbox 2).length = min 2 scenarioMailbox.length
    ∧ ((fetchedMails scenarioMailbox 2).map slotOrdNum).Pairwise
        (fun i j => j < i)
    ∧ fetch_n_recent_mails "Inbox" 2 (ImapSession.mk [("Inbox", [])])
        = Except.error (Failure.imap ImapError.badFetchSet) :=
  ⟨(fetch_n_recent_mails_count_and_order "Inbox" scenarioMailbox 2
      (by decide) (by decide) (by decide)
      (by
        intro item h
        simp only [scenarioMailbox, scenarioItem, List.mem_cons,
          List.not_mem_nil, or_false] at h
        rcases h with rfl | rfl | rfl <;> exact ⟨⟨"raw", rfl⟩, rfl⟩)
      (by decide) (by decide)).2.2.2.2.1,
   (fetch_n_recent_mails_count_and_order "Inbox" scenarioMailbox 2
      (by decide) (by decide) (by decide)
      (by
        intro item h
        simp only [scenarioMailbox, scenarioItem, List.mem_cons,
          List.not_mem_nil, or_false] at h
        rcases h with rfl | rfl | rfl <;> exact ⟨⟨"raw", rfl⟩, rfl⟩)
      (by decide) (by decide)).2.2.2.2.2.2.1,
   (fetch_n_recent_mails_count_and_order "Inbox" scenarioMailbox 2
      (by decide) (by decide) (by decide)
      (by
        intro item h
        simp only [scenarioMailbox, scenarioItem, List.mem_cons,
          List.not_mem_nil, or_false] at h
        rcases h with rfl | rfl | rfl <;> exact ⟨⟨"raw", rfl⟩, rfl⟩)
      (by decide) (by decide)).2.2.2.2.2.2.2⟩
